import Mathlib

/-!
Shallow embedding of `sm_utils.py` (class `CosmosData`) from the
phydrus-cosmosuk-notebook repository, together with theorems settling the
frozen claims about its specification.

Conventions of the embedding:
* calendar dates are integer day numbers (`ℤ`), converted from civil
  year/month/day by a proleptic-Gregorian ordinal (`toOrdinal`, the same
  encoding as Python's `date.toordinal`);
* numeric cell values are rationals (`ℚ`); a missing value (pandas `NaN`/
  `NaT`) is `none : Option ℚ` (resp. `Option ℤ` for date-valued columns).
  Arithmetic on cells propagates `none` exactly as IEEE arithmetic
  propagates `NaN`;
* the one transcendental (`np.exp` in `write_atmo_data`) is a parameter
  `e : ℚ → ℚ` of the writer, so every definition stays computable.
-/

set_option autoImplicit false

namespace Cosmos

/-! ### Missing-value (NaN) propagating cell arithmetic -/

/-- Apply a binary operation to two nullable cells, propagating `none`
(the embedding of NaN arithmetic). -/
def opt2 (f : ℚ → ℚ → ℚ) : Option ℚ → Option ℚ → Option ℚ
  | some a, some b => some (f a b)
  | _, _ => none

/-! ### LAI reconstruction (`CosmosData.get_MODIS_data`, lines 154-183) -/

/-- One raw MODIS LAI sample: date (day number), LAI value, confidence. -/
structure Sample where
  date : ℤ
  lai : ℚ
  conf : ℚ
deriving DecidableEq, Repr

/-- Tail of the `CALC` column (line 160):
`CALC[i] = LAI[i-1] + (LAI[i] - LAI[i-1]) / (Confidence[i] + 1)`,
where `LAI[i-1]` is the raw previous sample (`MODIS['LAI'].shift(1)`). -/
def calcStep (p : Sample) : List Sample → List ℚ
  | [] => []
  | b :: r => (p.lai + (b.lai - p.lai) / (b.conf + 1)) :: calcStep b r

/-- The `CALC` column after the first-row patch
(`MODIS['CALC'][0] = MODIS['LAI'][0]`, line 161). -/
def calcCol : List Sample → List ℚ
  | [] => []
  | a :: r => a.lai :: calcStep a r

/-- The `Date0` column (lines 164-165): previous sample's date, with the
first entry patched to the first sample's own date. -/
def date0Col (s : List Sample) : List ℤ :=
  match s with
  | [] => []
  | a :: _ => a.date :: (s.map Sample.date).dropLast

/-- Association list date ↦ raw LAI. -/
def laiAssoc (s : List Sample) : List (ℤ × ℚ) :=
  s.map (fun a => (a.date, a.lai))

/-- Association list date ↦ CALC value. -/
def calcAssoc (s : List Sample) : List (ℤ × ℚ) :=
  (s.map Sample.date).zip (calcCol s)

/-- Association list date ↦ own date (the `Date2` column, line 163). -/
def dateAssoc (s : List Sample) : List (ℤ × ℤ) :=
  s.map (fun a => (a.date, a.date))

/-- Association list date ↦ Date0 value. -/
def date0Assoc (s : List Sample) : List (ℤ × ℤ) :=
  (s.map Sample.date).zip (date0Col s)

/-- `DataFrame.reindex` (line 170): for every date of the target calendar,
the value at that date if the source index holds it, else missing.
(pandas refuses to reindex a duplicated index, so the source dates are
assumed distinct wherever this matters.) -/
def reindex {α : Type} (cal : List ℤ) (tbl : List (ℤ × α)) : List (Option α) :=
  cal.map (fun d => (tbl.find? (fun p => p.1 == d)).map Prod.snd)

/-- Forward fill (`Series.ffill`) carrying an incoming last-seen value. -/
def ffillFrom {α : Type} (last : Option α) : List (Option α) → List (Option α)
  | [] => []
  | none :: r => last :: ffillFrom last r
  | some v :: r => some v :: ffillFrom (some v) r

/-- Forward fill (`Series.ffill`, lines 172-173, 176). -/
def ffill {α : Type} (l : List (Option α)) : List (Option α) :=
  ffillFrom none l

/-- Backward fill (`Series.bfill`, lines 174-175): a missing entry takes
the next defined value after it, if any. -/
def bfill {α : Type} : List (Option α) → List (Option α)
  | [] => []
  | some v :: r => some v :: bfill r
  | none :: r => ((bfill r).headD none) :: bfill r

/-- The message pandas raises when `Series.astype(int)` meets a
non-finite value. -/
def castErrMsg : String := "Cannot convert non-finite values (NA or inf) to integer"

/-- `Series.astype(int)` on an integer day-count column that may hold
missing values (NaN from NaT timedeltas): pandas raises a `ValueError`
if any entry is missing, otherwise yields the integer values. -/
def seriesAstypeInt (l : List (Option ℤ)) : Except String (List ℤ) :=
  if l.all (fun x => x.isSome) then .ok (l.map (fun x => x.getD 0))
  else .error castErrMsg

/-- Missing-value propagating subtraction on date values
(`Date2 - index`, `Date2 - Date0`: NaT propagates). -/
def osub : Option ℤ → Option ℤ → Option ℤ
  | some a, some b => some (a - b)
  | _, _ => none

/-- One entry of the `LAI_pred` column (lines 180-181), after the two
`astype(int)` casts have succeeded:
`CALC2 + (CALC - CALC2) * num / den` with NaN propagation through
`CALC`/`CALC2`; when `den = 0` the float result is NaN (in the source
`den = 0` forces `num = 0` and `CALC = CALC2` at that row for strictly
date-sorted samples, giving `0 * (0/0) = NaN`). -/
def predAt (c c2 : Option ℚ) (num den : ℤ) : Option ℚ :=
  if den = 0 then none
  else opt2 (fun cv c2v => c2v + (cv - c2v) * ((num : ℚ) / (den : ℚ))) c c2

/-- Pointwise `LAI_pred` over the aligned CALC, CALC2 and day-count
columns. -/
def pred4 : List (Option ℚ) → List (Option ℚ) → List ℤ → List ℤ → List (Option ℚ)
  | c :: cs, c2 :: c2s, n :: ns, d :: ds => predAt c c2 n d :: pred4 cs c2s ns ds
  | _, _, _, _ => []

/-- Replace the first entry of a list, if any (positional assignment to
row 0, as in `MODIS['LAI_pred'][0] = ...`). -/
def setFirst {α : Type} (l : List α) (v : α) : List α :=
  match l with
  | [] => []
  | _ :: t => v :: t

/-- The reconstructed `LAI_pred` column of `get_MODIS_data`
(lines 160-183): smoothing, bracket columns, reindex to the calendar,
fills, then line 180's two `Series.astype(int)` day-count casts — which
raise whenever the filled `Date2`/`Date0` columns retain a missing date
(NaT), the numerator cast being evaluated first — then the triangle-rule
interpolation and the final first-row patch
`MODIS['LAI_pred'][0] = MODIS['LAI'][0]`, which — the frame being indexed
by the calendar at that point — writes the reindexed raw-LAI value of the
first calendar date into the first row. -/
def get_MODIS (s : List Sample) (cal : List ℤ) : Except String (List (Option ℚ)) :=
  let c := ffill (reindex cal (calcAssoc s))
  let c2 := bfill (reindex cal (calcAssoc s))
  let e2 := bfill (reindex cal (dateAssoc s))
  let e0 := ffill (reindex cal (date0Assoc s))
  let num := List.zipWith (fun (oe : Option ℤ) (d : ℤ) => oe.map (fun x => x - d)) e2 cal
  let den := List.zipWith osub e2 e0
  match seriesAstypeInt num with
  | .error m => .error m
  | .ok nums =>
    match seriesAstypeInt den with
    | .error m => .error m
    | .ok dens =>
      .ok (setFirst (pred4 c c2 nums dens) ((reindex cal (laiAssoc s)).headD none))

/-! ### A small dataframe model

A `Table` is an ordered list of rows, each carrying an index value and one
nullable cell per column; `idxName` is the name the index column would take
on `reset_index`. Index values are rationals (dates are embedded via their
integer day number). -/

structure Table where
  idxName : String
  cols : List String
  rows : List (ℚ × List (Option ℚ))
deriving DecidableEq, Repr

/-- Value of the cell of column `c` in a row whose cells are aligned with
`cols` (missing column reads as missing value). -/
def getCell (cols : List String) (cells : List (Option ℚ)) (c : String) : Option ℚ :=
  match (cols.zip cells).find? (fun p => p.1 == c) with
  | some p => p.2
  | none => none

/-- `DataFrame.join` with pandas defaults (`how='left'`, on the index):
every left row is kept; matching right rows contribute their cells, a
missing match contributes missing values, several matches duplicate the
left row. -/
def Table.join (t u : Table) : Table :=
  { idxName := t.idxName
    cols := t.cols ++ u.cols
    rows := t.rows.flatMap (fun r =>
      match u.rows.filter (fun s => s.1 == r.1) with
      | [] => [(r.1, r.2 ++ u.cols.map (fun _ => (none : Option ℚ)))]
      | ms => ms.map (fun s => (r.1, r.2 ++ s.2))) }

/-- `DataFrame.assign`: compute a column from each (original) row; an
existing column is replaced in place, a new one is appended. -/
def Table.assign (t : Table) (c : String)
    (f : List String → List (Option ℚ) → Option ℚ) : Table :=
  if c ∈ t.cols then
    { t with rows := t.rows.map (fun r =>
        (r.1, (t.cols.zip r.2).map (fun p => if p.1 == c then f t.cols r.2 else p.2))) }
  else
    { t with cols := t.cols ++ [c]
             rows := t.rows.map (fun r => (r.1, r.2 ++ [f t.cols r.2])) }

/-- `DataFrame.drop(columns=cs)`. -/
def Table.drop (t : Table) (cs : List String) : Table :=
  { idxName := t.idxName
    cols := t.cols.filter (fun c => !(cs.contains c))
    rows := t.rows.map (fun r =>
      (r.1, ((t.cols.zip r.2).filter (fun p => !(cs.contains p.1))).map Prod.snd)) }

/-- `DataFrame.transform(lambda x: x * k)`: every cell of every column is
scaled; missing values stay missing. -/
def Table.scale (t : Table) (k : ℚ) : Table :=
  { t with rows := t.rows.map (fun r => (r.1, r.2.map (Option.map (fun v => v * k)))) }

/-- `assign` of a scalar constant (a whole constant column). -/
def Table.assignConst (t : Table) (c : String) (v : ℚ) : Table :=
  t.assign c (fun _ _ => some v)

/-- `assign(c = range(len(x)))`: 0-based positional values. In the source
this always introduces a fresh column (`tAtm`), so the new column is
appended. -/
def Table.assignRange (t : Table) (c : String) : Table :=
  { t with cols := t.cols ++ [c]
           rows := t.rows.enum.map (fun p => (p.2.1, p.2.2 ++ [some (p.1 : ℚ)])) }

/-- `DataFrame.set_index(c)`: column `c` becomes the index (the previous
index is discarded). -/
def Table.setIndex (t : Table) (c : String) : Table :=
  { idxName := c
    cols := t.cols.filter (fun x => !(x == c))
    rows := t.rows.map (fun r =>
      ((getCell t.cols r.2 c).getD 0,
       ((t.cols.zip r.2).filter (fun p => !(p.1 == c))).map Prod.snd)) }

/-- `DataFrame.reset_index()`: the index becomes the leading column, the
new index is positional. -/
def Table.resetIndex (t : Table) : Table :=
  { idxName := ""
    cols := t.idxName :: t.cols
    rows := t.rows.enum.map (fun p => ((p.1 : ℚ), some p.2.1 :: p.2.2)) }

/-- `DataFrame.rename(columns={a: b})`. -/
def Table.rename (t : Table) (a b : String) : Table :=
  { t with cols := t.cols.map (fun c => if c == b then c else if c == a then b else c) }

/-! ### The atmosphere writer (`CosmosData.write_atmo_data`, lines 201-229) -/

/-- The column chain shared by the two pathways (lines 202-210 and
216-224), parameterized by the pathway's PE and precipitation column
names and by the exponential function `e` (`np.exp`). -/
def write_atmo_core (e : ℚ → ℚ) (peCol precCol : String) (t : Table) : Table :=
  ((((((((t.assign "rSoil" (fun cs vs =>
          opt2 (fun p l => p * e (-(463/1000) * l))
            (getCell cs vs peCol) (getCell cs vs "LAI_pred"))).assign "rRoot"
          (fun cs vs =>
            opt2 (fun p s => p - s) (getCell cs vs peCol)
              (getCell cs vs "rSoil"))).drop
        ["LAI_pred", peCol]).scale (1/10)).assignConst "hCritA"
      100000).assignRange "tAtm").setIndex "tAtm").rename precCol
    "Prec").resetIndex.assign "tAtm"
    (fun cs vs => (getCell cs vs "tAtm").map (fun v => v + 1))

/-- The API pathway (lines 202-210): `pe.join(precip).join(MODIS)` then
the shared chain with column names `pe` and `precip`. -/
def write_atmo_api (e : ℚ → ℚ) (pe precip modis : Table) : Table :=
  write_atmo_core e "pe" "precip" ((pe.join precip).join modis)

/-- The archival-file pathway (lines 216-224): `PE.join(PREC).join(MODIS)`
then the shared chain with column names `PE` and `PRECIP`. -/
def write_atmo_file (e : ℚ → ℚ) (pe prec modis : Table) : Table :=
  write_atmo_core e "PE" "PRECIP" ((pe.join prec).join modis)

/-! ### The precipitation aggregator (`CosmosData.get_PREC_data`, lines 143-148) -/

/-- One raw sub-daily precipitation record: date part and time-of-day part
of the timestamp, and a nullable value (the `-9999` sentinel is already
mapped to missing by `na_values`). -/
structure PrecRow where
  date : ℤ
  time : ℚ
  val : Option ℚ
deriving DecidableEq, Repr

/-- Insert a date into a sorted duplicate-free list of dates. -/
def insOrd (d : ℤ) : List ℤ → List ℤ
  | [] => [d]
  | a :: r => if d = a then a :: r else if d < a then d :: a :: r else a :: insOrd d r

/-- The group keys of `groupby(DATE_TIME.dt.date)` (pandas sorts group
keys): the distinct dates present in the input, in ascending order. -/
def groupKeys (rows : List PrecRow) : List ℤ :=
  rows.foldr (fun r ks => insOrd r.date ks) []

/-- The non-null values recorded on date `d`. -/
def dayVals (rows : List PrecRow) (d : ℤ) : List ℚ :=
  (rows.filter (fun r => r.date == d)).filterMap PrecRow.val

/-- Aggregated `sum` for date `d` (pandas `sum` skips nulls, 0 on empty). -/
def precSum (rows : List PrecRow) (d : ℤ) : ℚ :=
  (dayVals rows d).sum

/-- Aggregated `count` for date `d` (number of non-null samples). -/
def precCount (rows : List PrecRow) (d : ℤ) : ℕ :=
  (dayVals rows d).length

/-- Calendar year of a day number (`Date.dt.year`): the civil-from-days
conversion for the proleptic Gregorian calendar (day 1 is 0001-01-01),
via the era decomposition. -/
def yearOf (n : ℤ) : ℤ :=
  let z := n + 305
  let era := z / 146097
  let doe := z - era * 146097
  let yoe := (doe - doe / 1460 + doe / 36524 - doe / 146096) / 365
  let y := yoe + era * 400
  let doy := doe - (365 * yoe + yoe / 4 - yoe / 100)
  let mp := (5 * doy + 2) / 153
  let m := mp + (if mp < 10 then 3 else -9)
  if m ≤ 2 then y + 1 else y

/-- The table produced by `get_PREC_data` (lines 143-148): one row per
distinct input date whose calendar year is among the requested years
(the `isin(self.years)` filter of line 148), with columns renamed to
`PRECIP` (the sum) and `prec_count` (the count), indexed by date. -/
def get_PREC_data (years : List ℤ) (rows : List PrecRow) : Table :=
  { idxName := "Date"
    cols := ["PRECIP", "prec_count"]
    rows := ((groupKeys rows).filter (fun d => years.contains (yearOf d))).map
      (fun (d : ℤ) =>
        ((d : ℚ), [some (precSum rows d), some ((precCount rows d : ℕ) : ℚ)])) }

/-! ### The calendar builder (`pd.date_range` on line 168) -/

/-- Cumulative day counts before each month in a common year. -/
def monthDays : List ℤ := [0, 31, 59, 90, 120, 151, 181, 212, 243, 273, 304, 334]

/-- Gregorian leap-year test. -/
def isLeap (y : ℤ) : Bool :=
  (y % 4 == 0 && y % 100 != 0) || y % 400 == 0

/-- Days strictly before month `m` in a year with leap flag `leap`. -/
def daysBeforeMonth (leap : Bool) (m : ℤ) : ℤ :=
  monthDays.getD (m - 1).toNat 0 + (if leap ∧ 2 < m then 1 else 0)

/-- Days in all years strictly before year `y` (proleptic Gregorian). -/
def daysBeforeYear (y : ℤ) : ℤ :=
  365 * (y - 1) + (y - 1) / 4 - (y - 1) / 100 + (y - 1) / 400

/-- Day number of the civil date `y-m-d` (Python `date.toordinal`:
0001-01-01 is day 1). -/
def toOrdinal (y m d : ℤ) : ℤ :=
  daysBeforeYear y + daysBeforeMonth (isLeap y) m + d

/-- Python `min` over a list of years (0 on the undefined empty case). -/
def listMin : List ℤ → ℤ
  | [] => 0
  | a :: r => r.foldl min a

/-- Python `max` over a list of years (0 on the undefined empty case). -/
def listMax : List ℤ → ℤ
  | [] => 0
  | a :: r => r.foldl max a

/-- `pd.date_range(start, end)` with daily frequency: every day number
from `a` to `b` inclusive. -/
def dateRange (a b : ℤ) : List ℤ :=
  (List.range (b + 1 - a).toNat).map (fun (n : ℕ) => a + (n : ℤ))

/-- The daily calendar of line 168:
`pd.date_range('1/1/min(years)', '31/12/max(years)')`. -/
def buildCalendar (years : List ℤ) : List ℤ :=
  dateRange (toOrdinal (listMin years) 1 1) (toOrdinal (listMax years) 12 31)

/-- The single-column table `get_MODIS_data` returns (line 183), indexed
by the daily calendar; the `astype(int)` failure of line 180 propagates
as an exception. -/
def get_MODIS_table (s : List Sample) (cal : List ℤ) : Except String Table :=
  (get_MODIS s cal).map (fun preds =>
    { idxName := "Date"
      cols := ["LAI_pred"]
      rows := (cal.zip preds).map (fun p => ((p.1 : ℚ), [p.2])) })

/-! ### Effect model of the write step and the full pipeline -/

/-- File-system state: contents (as a table; the CSV rendering is a fixed
function of it) stored at each path. -/
def FS : Type := String → Option Table

/-- Overwrite the file at `p` (what `DataFrame.to_csv(p)` does: a direct
write to the final path, no temporary staging). -/
def writeFile (fs : FS) (p : String) (t : Table) : FS :=
  fun q => if q = p then some t else fs q

/-- Output path of the API pathway (line 213). -/
def apiPath : String := "data/atmosphere_API.csv"

/-- Output path of the archival-file pathway (line 227). -/
def filePath : String := "data/atmosphere.csv"

/-- Effect model of `write_atmo_data` (lines 201-229): compute the API
table (may fail), write it directly to its final path, compute the
archival-file table (may fail), write it. -/
def writeAtmoRun (api arch : Except String Table) (fs : FS) :
    Except String Table × FS :=
  match api with
  | .error m => (.error m, fs)
  | .ok ta =>
    let fs1 := writeFile fs apiPath ta
    match arch with
    | .error m => (.error m, fs1)
    | .ok tb => (.ok tb, writeFile fs1 filePath tb)

/-- The declared inputs of a pipeline run: the archival-file tables, the
API-decoded tables, the LAI sample file, and the requested years. -/
structure Inputs where
  apiPE : Table
  apiPrec : Table
  archPE : Table
  archPrec : Table
  modis : List Sample
  years : List ℤ
deriving DecidableEq

/-- The pipeline run over an initial file-system state. The output tables
are pure functions of the declared inputs; the only effects are the two
writes of `write_atmo_data`. A failure of `get_MODIS_data` (which runs
first, in `__init__`) aborts the run before any write. -/
def runPipeline (e : ℚ → ℚ) (i : Inputs) (fs : FS) : Except String Table × FS :=
  match get_MODIS_table i.modis (buildCalendar i.years) with
  | .error m => (.error m, fs)
  | .ok mt =>
    writeAtmoRun (.ok (write_atmo_api e i.apiPE i.apiPrec mt))
      (.ok (write_atmo_file e i.archPE i.archPrec mt)) fs

/-! ### General lemmas about the embedded operations -/

theorem ffillFrom_length {α : Type} (last : Option α) (l : List (Option α)) :
    (ffillFrom last l).length = l.length := by
  induction l generalizing last with
  | nil => rfl
  | cons x r ih => cases x <;> simp [ffillFrom, ih]

theorem ffill_length {α : Type} (l : List (Option α)) : (ffill l).length = l.length :=
  ffillFrom_length none l

theorem bfill_length {α : Type} (l : List (Option α)) : (bfill l).length = l.length := by
  induction l with
  | nil => rfl
  | cons x r ih => cases x <;> simp [bfill, ih]

theorem reindex_length {α : Type} (cal : List ℤ) (tbl : List (ℤ × α)) :
    (reindex cal tbl).length = cal.length := by
  simp [reindex]

/-- Characterization of backward fill: entry `i` holds the first defined
value at or after position `i` of the source, if any. -/
theorem bfill_getElem? {α : Type} (l : List (Option α)) (i : ℕ) (hi : i < l.length) :
    (bfill l)[i]? = some ((l.drop i).findSome? id) := by
  induction l generalizing i with
  | nil => simp at hi
  | cons x r ih =>
    cases x with
    | some v =>
      cases i with
      | zero => simp [bfill]
      | succ j =>
        have hj : j < r.length := by simpa using hi
        simpa [bfill] using ih j hj
    | none =>
      cases i with
      | zero =>
        have h0 : (bfill r).headD none = r.findSome? id := by
          cases hb : bfill r with
          | nil =>
            have : r = [] := by
              have := bfill_length r
              rw [hb] at this
              exact List.eq_nil_of_length_eq_zero this.symm
            simp [this]
          | cons y t =>
            have hr : 0 < r.length := by
              have := bfill_length r
              rw [hb] at this
              simp [this.symm]
            have := ih 0 hr
            rw [hb] at this
            simpa using this
        simp only [bfill]
        rw [List.getElem?_cons_zero]
        rw [List.headD_eq_head?_getD] at h0
        simp [h0]
      | succ j =>
        have hj : j < r.length := by simpa using hi
        simpa [bfill] using ih j hj

theorem setFirst_head? {α : Type} (l : List α) (v : α) (h : l ≠ []) :
    (setFirst l v).head? = some v := by
  cases l with
  | nil => exact absurd rfl h
  | cons a t => rfl

/-- The interpolation column is non-empty when its four inputs are. -/
theorem pred4_ne_nil (cs c2s : List (Option ℚ)) (ns ds : List ℤ)
    (h1 : 0 < cs.length) (h2 : 0 < c2s.length) (h3 : 0 < ns.length)
    (h4 : 0 < ds.length) : pred4 cs c2s ns ds ≠ [] := by
  rcases cs with _ | ⟨c, cs⟩
  · simp at h1
  rcases c2s with _ | ⟨y, c2s⟩
  · simp at h2
  rcases ns with _ | ⟨n, ns⟩
  · simp at h3
  rcases ds with _ | ⟨dd, ds⟩
  · simp at h4
  simp [pred4]

/-- The `astype(int)` cast raises as soon as one entry is missing. -/
theorem seriesAstypeInt_error_of_mem {l : List (Option ℤ)} (h : none ∈ l) :
    seriesAstypeInt l = .error castErrMsg := by
  rw [seriesAstypeInt, if_neg]
  intro hall
  have := List.all_eq_true.mp hall none h
  simp at this

/-- The only error the cast ever raises is the non-finite message. -/
theorem seriesAstypeInt_error_msg {l : List (Option ℤ)} {m : String}
    (h : seriesAstypeInt l = .error m) : m = castErrMsg := by
  rw [seriesAstypeInt] at h
  split at h
  · cases h
  · cases h
    rfl

/-- A successful cast keeps the column length. -/
theorem seriesAstypeInt_ok_length {l : List (Option ℤ)} {v : List ℤ}
    (h : seriesAstypeInt l = .ok v) : v.length = l.length := by
  rw [seriesAstypeInt] at h
  split at h
  · cases h
    simp
  · cases h

/-- Entry `i` of a `zipWith`, given the entries of the two columns. -/
theorem zipWith_getElem?_eq {α β γ : Type} (f : α → β → γ) (as : List α)
    (bs : List β) (i : ℕ) (a : α) (b : β) (ha : as[i]? = some a)
    (hb : bs[i]? = some b) : (List.zipWith f as bs)[i]? = some (f a b) := by
  induction as generalizing bs i with
  | nil => simp at ha
  | cons x as ih =>
    rcases bs with _ | ⟨y, bs⟩
    · simp at hb
    cases i with
    | zero =>
      simp only [List.getElem?_cons_zero, Option.some.injEq] at ha hb
      subst ha hb
      simp
    | succ j =>
      simp only [List.getElem?_cons_succ] at ha hb
      simpa using ih bs j ha hb

/-- In a `≤`-sorted list, every element at or after position `i` is at
least the element at `i`. -/
theorem sorted_le_of_mem_drop (cal : List ℤ) (i : ℕ) (hi : i < cal.length)
    (h : cal.Pairwise (· ≤ ·)) : ∀ d ∈ cal.drop i, cal.get ⟨i, hi⟩ ≤ d := by
  intro d hd
  rw [List.mem_drop_iff_getElem] at hd
  obtain ⟨k, hm, hk⟩ := hd
  rcases Nat.eq_zero_or_pos k with h0 | h0
  · subst h0
    rw [← hk]
    simp
  · have hlt : cal[i] ≤ cal[i + k] :=
      List.pairwise_iff_getElem.mp h i (i + k) hi (by omega) (by omega)
    rw [hk] at hlt
    simpa using hlt

/-- Entry `j` of `calcStep p r`: previous raw LAI plus the
confidence-damped difference to the current raw LAI. -/
theorem calcStep_getElem? (p : Sample) (r : List Sample) (j : ℕ) (hj : j < r.length) :
    (calcStep p r)[j]? =
      some (((p :: r).get ⟨j, by simp; omega⟩).lai +
        ((r.get ⟨j, hj⟩).lai - ((p :: r).get ⟨j, by simp; omega⟩).lai) /
          ((r.get ⟨j, hj⟩).conf + 1)) := by
  induction r generalizing p j with
  | nil => simp at hj
  | cons b r ih =>
    cases j with
    | zero => simp [calcStep]
    | succ k =>
      have hk : k < r.length := by simpa using hj
      have h := ih b k hk
      simpa [calcStep, List.get_eq_getElem] using h

/-- A missing value anywhere makes the cast fail, never succeed. -/
theorem seriesAstypeInt_not_ok {l : List (Option ℤ)} (h : none ∈ l)
    (v : List ℤ) : seriesAstypeInt l ≠ .ok v := by
  rw [seriesAstypeInt_error_of_mem h]
  simp

/-- A dated association list built by zipping sample dates with values
finds nothing at a date no sample carries. -/
theorem find?_zip_none {α : Type} (xs : List ℤ) (ys : List α) (d : ℤ)
    (h : ∀ x ∈ xs, x ≠ d) :
    (xs.zip ys).find? (fun p => p.1 == d) = none := by
  rw [List.find?_eq_none]
  intro p hp
  have hmem := (List.of_mem_zip hp).1
  simpa using h p.1 hmem

/-- A dated association list built by mapping over the samples finds
nothing at a date no sample carries. -/
theorem find?_map_date_none {α : Type} (g : Sample → α) (s : List Sample) (d : ℤ)
    (h : ∀ b ∈ s, b.date ≠ d) :
    (s.map (fun b => (b.date, g b))).find? (fun p => p.1 == d) = none := by
  rw [List.find?_eq_none]
  intro x hx
  rw [List.mem_map] at hx
  obtain ⟨b, hb, hbx⟩ := hx
  rw [← hbx]
  simpa using h b hb

/-- When `astype(int)` raises on the numerator day counts (somewhere the
backward-filled `Date2` is missing), `get_MODIS_data` raises. -/
theorem get_MODIS_error_of_num (s : List Sample) (cal : List ℤ)
    (h : (none : Option ℤ) ∈ List.zipWith
      (fun (oe : Option ℤ) (d : ℤ) => oe.map (fun x => x - d))
      (bfill (reindex cal (dateAssoc s))) cal) :
    get_MODIS s cal = .error castErrMsg := by
  simp only [get_MODIS]
  rcases hnum : seriesAstypeInt (List.zipWith
      (fun (oe : Option ℤ) (d : ℤ) => oe.map (fun x => x - d))
      (bfill (reindex cal (dateAssoc s))) cal) with m | nums
  · simp [hnum, seriesAstypeInt_error_msg hnum]
  · exact absurd hnum (seriesAstypeInt_not_ok h nums)

/-- When the numerator cast succeeds but the denominator day counts hold
a missing value (somewhere the forward-filled `Date0` is missing),
`get_MODIS_data` raises. -/
theorem get_MODIS_error_of_den (s : List Sample) (cal : List ℤ)
    (h : (none : Option ℤ) ∈ List.zipWith osub (bfill (reindex cal (dateAssoc s)))
      (ffill (reindex cal (date0Assoc s)))) :
    get_MODIS s cal = .error castErrMsg := by
  simp only [get_MODIS]
  rcases hnum : seriesAstypeInt (List.zipWith
      (fun (oe : Option ℤ) (d : ℤ) => oe.map (fun x => x - d))
      (bfill (reindex cal (dateAssoc s))) cal) with m | nums
  · simp [hnum, seriesAstypeInt_error_msg hnum]
  · rcases hden : seriesAstypeInt (List.zipWith osub
        (bfill (reindex cal (dateAssoc s)))
        (ffill (reindex cal (date0Assoc s)))) with m2 | dens
    · simp [hnum, hden, seriesAstypeInt_error_msg hden]
    · exact absurd hden (seriesAstypeInt_not_ok h dens)

/-- On a successful run over a non-empty calendar, the head of the
reconstructed series is the patched value: the raw LAI found (or not) at
the first calendar date. -/
theorem get_MODIS_ok_head? (s : List Sample) (d : ℤ) (cal : List ℤ)
    (out : List (Option ℚ))
    (hok : get_MODIS s (d :: cal) = .ok out) :
    out.head? = some (((laiAssoc s).find? (fun p => p.1 == d)).map Prod.snd) := by
  rcases hnum : seriesAstypeInt (List.zipWith
      (fun (oe : Option ℤ) (x : ℤ) => oe.map (fun y => y - x))
      (bfill (reindex (d :: cal) (dateAssoc s))) (d :: cal)) with m | nums
  · simp only [get_MODIS, hnum] at hok
    cases hok
  · rcases hden : seriesAstypeInt (List.zipWith osub
        (bfill (reindex (d :: cal) (dateAssoc s)))
        (ffill (reindex (d :: cal) (date0Assoc s)))) with m2 | dens
    · simp only [get_MODIS, hnum, hden] at hok
      cases hok
    · simp only [get_MODIS, hnum, hden, Except.ok.injEq] at hok
      subst hok
      have l1 : 0 < (ffill (reindex (d :: cal) (calcAssoc s))).length := by
        rw [ffill_length, reindex_length]; simp
      have l2 : 0 < (bfill (reindex (d :: cal) (calcAssoc s))).length := by
        rw [bfill_length, reindex_length]; simp
      have l3 : 0 < nums.length := by
        rw [seriesAstypeInt_ok_length hnum, List.length_zipWith, bfill_length,
          reindex_length]
        simp
      have l4 : 0 < dens.length := by
        rw [seriesAstypeInt_ok_length hden, List.length_zipWith, bfill_length,
          reindex_length, ffill_length, reindex_length]
        simp
      rw [setFirst_head? _ _ (pred4_ne_nil _ _ _ _ l1 l2 l3 l4)]
      simp [reindex]

/-! ### Claims C1-C3: the LAI reconstructor -/

/-- Claim C1, counterexample: for the date-sorted samples
`[(0, LAI=1, conf=0), (1, LAI=3, conf=1), (2, LAI=3, conf=1)]` the code's
smoothed column has `smoothed[2] = 3`, while the claimed recursion
`smoothed[1] + (LAI[2] - smoothed[1]) / (confidence[2] + 1)` gives
`2 + (3 - 2) / 2 = 5/2`; so the claimed recursive equation fails at
`i = 2`, and `smoothed[2]` depends only on the raw `LAI[1]`, not on the
prior smoothed value. -/
theorem claim_C1_counterexample :
    (calcCol [⟨0, 1, 0⟩, ⟨1, 3, 1⟩, ⟨2, 3, 1⟩])[2]? = some 3 ∧
    (calcCol [⟨0, 1, 0⟩, ⟨1, 3, 1⟩, ⟨2, 3, 1⟩])[1]? = some 2 ∧
    ((2 : ℚ) + ((3 : ℚ) - 2) / (1 + 1)) = 5 / 2 ∧
    some ((3 : ℚ)) ≠ some ((5 : ℚ) / 2) := by
  refine ⟨?_, ?_, by norm_num, by norm_num⟩
  · simp [calcCol, calcStep]
  · simp [calcCol, calcStep]
    norm_num

/-- Claim C1 (amended): the smoothed column satisfies
`smoothed[0] = LAI[0]` and, for `i ≥ 1`,
`smoothed[i] = LAI[i-1] + (LAI[i] - LAI[i-1]) / (confidence[i] + 1)` —
a step from the raw previous sample `LAI[i-1]`, not from the previous
smoothed value, so `smoothed[i]` depends only on samples `i-1` and `i`. -/
theorem claim_C1 (s : List Sample) (i : ℕ) (h1 : 1 ≤ i) (hi : i < s.length) :
    (calcCol s)[i]? =
      some ((s.get ⟨i - 1, by omega⟩).lai +
        ((s.get ⟨i, hi⟩).lai - (s.get ⟨i - 1, by omega⟩).lai) /
          ((s.get ⟨i, hi⟩).conf + 1)) ∧
    (calcCol s)[0]? = some ((s.get ⟨0, by omega⟩).lai) := by
  rcases s with _ | ⟨a, r⟩
  · simp at hi
  refine ⟨?_, by simp [calcCol]⟩
  rcases i with _ | j
  · omega
  · have hj : j < r.length := by simpa using hi
    have h := calcStep_getElem? a r j hj
    simpa [calcCol, List.get_eq_getElem] using h

/-- Witness for claim C1 at the samples
`[(0, LAI=1, conf=0), (1, LAI=3, conf=1)]` and `i = 1`. -/
theorem claim_C1_witness :
    (calcCol [⟨0, 1, 0⟩, ⟨1, 3, 1⟩])[1]? = some 2 ∧
    (calcCol [⟨0, 1, 0⟩, ⟨1, 3, 1⟩])[0]? = some 1 := by
  have h := claim_C1 [⟨0, 1, 0⟩, ⟨1, 3, 1⟩] 1 (le_refl 1) (by decide)
  constructor
  · rw [h.1]
    simp
    norm_num
  · rw [h.2]
    simp

/-- Claim C2, counterexample: one sample at date 2 with `LAI = 1`, over
the calendar `[0, 1, 2, 3, 4]` whose first date strictly precedes the
sample. `get_MODIS_data` raises (the `astype(int)` of line 180 meets the
missing day counts left by the fills), so no reconstructed series exists
at all — in particular the first calendar date does not receive the first
raw sample value 1 by override. -/
theorem claim_C2_counterexample :
    get_MODIS [⟨2, 1, 0⟩] [0, 1, 2, 3, 4] = .error castErrMsg ∧
    (get_MODIS [⟨2, 1, 0⟩] [0, 1, 2, 3, 4]).toOption = none :=
  ⟨rfl, rfl⟩

/-- Claim C2 (amended): when the calendar's first date strictly precedes
every sample's date, `get_MODIS_data` raises pandas' non-finite-cast
`ValueError` at line 180 (the forward-filled `Date0` column has no value
on the first row), so no reconstruction is produced there — the claimed
override never happens. When the run does complete and the first sample
lies on the first calendar date, the final patch makes the series' first
entry the first raw un-smoothed sample LAI. -/
theorem claim_C2 (a : Sample) (s : List Sample) (d : ℤ) (cal : List ℤ) :
    ((∀ b ∈ a :: s, d < b.date) →
      get_MODIS (a :: s) (d :: cal) = .error castErrMsg) ∧
    (∀ out, get_MODIS (a :: s) (d :: cal) = .ok out → a.date = d →
      out.head? = some (some a.lai)) := by
  constructor
  · intro hlt
    apply get_MODIS_error_of_den
    have hf : (date0Assoc (a :: s)).find? (fun p => p.1 == d) = none := by
      apply find?_zip_none
      intro x hx
      rw [List.mem_map] at hx
      obtain ⟨b, hb, hbx⟩ := hx
      have := hlt b hb
      omega
    have he0 : (ffill (reindex (d :: cal) (date0Assoc (a :: s))))[0]? = some none := by
      simp [reindex, ffill, ffillFrom, hf]
    have hlen : 0 < (bfill (reindex (d :: cal) (dateAssoc (a :: s)))).length := by
      rw [bfill_length, reindex_length]
      simp
    have hv := List.getElem?_eq_getElem hlen
    have hsub : osub ((bfill (reindex (d :: cal) (dateAssoc (a :: s))))[0]) none =
        none := by
      cases (bfill (reindex (d :: cal) (dateAssoc (a :: s))))[0] <;> rfl
    refine List.mem_iff_getElem?.mpr ⟨0, ?_⟩
    rw [zipWith_getElem?_eq osub _ _ 0 _ none hv he0, hsub]
  · intro out hok hd
    rw [get_MODIS_ok_head? (a :: s) d cal out hok]
    subst hd
    have hcons : laiAssoc (a :: s) = (a.date, a.lai) :: laiAssoc s := rfl
    rw [hcons, List.find?_cons_of_pos _ (by simp)]
    rfl

/-- Witness for claim C2: a sample strictly after the calendar start
makes the reconstructor raise; a single sample on a one-day calendar
completes, and its first entry is the raw sample LAI. -/
theorem claim_C2_witness :
    get_MODIS [⟨2, 1, 0⟩] [0, 1, 2, 3, 4] = .error castErrMsg ∧
    get_MODIS [⟨5, 1, 0⟩] [5] = .ok [some 1] ∧
    ([some (1 : ℚ)] : List (Option ℚ)).head? = some (some 1) := by
  refine ⟨(claim_C2 ⟨2, 1, 0⟩ [] 0 [1, 2, 3, 4]).1 (by decide), rfl,
    (claim_C2 ⟨5, 1, 0⟩ [] 5 []).2 [some 1] rfl rfl⟩

/-- Claim C3, counterexample: one sample at date 0, calendar
`[0, 1, 2, 3, 4]` extending past it. `get_MODIS_data` raises (the
backward-filled `Date2` column is missing past the last sample, so the
`astype(int)` of line 180 meets non-finite values): no series is
produced, so there is no value at every calendar date and no constant
forward-filled tail at the last smoothed value. -/
theorem claim_C3_counterexample :
    get_MODIS [⟨0, 1, 0⟩] [0, 1, 2, 3, 4] = .error castErrMsg ∧
    (get_MODIS [⟨0, 1, 0⟩] [0, 1, 2, 3, 4]).toOption = none :=
  ⟨rfl, rfl⟩

/-- Claim C3 (amended): whenever some calendar date lies strictly after
every sample's date — in particular whenever the calendar extends past
the last sample — the backward-filled `Date2` column retains a missing
date there, and `get_MODIS_data` raises pandas' non-finite-cast
`ValueError` at line 180: no reconstructed series is produced at all,
rather than a series forward-filled to the last smoothed value. -/
theorem claim_C3 (s : List Sample) (cal : List ℤ) (i : ℕ) (hi : i < cal.length)
    (hsorted : cal.Pairwise (· ≤ ·))
    (hafter : ∀ b ∈ s, b.date < cal.get ⟨i, hi⟩) :
    get_MODIS s cal = .error castErrMsg := by
  apply get_MODIS_error_of_num
  have he2len : i < (reindex cal (dateAssoc s)).length := by
    rw [reindex_length]; exact hi
  have hfind : ∀ d ∈ cal.drop i, (dateAssoc s).find? (fun p => p.1 == d) = none := by
    intro d hd
    refine find?_map_date_none _ _ _ ?_
    intro b hb
    have h1 := hafter b hb
    have h2 := sorted_le_of_mem_drop cal i hi hsorted d hd
    omega
  have hdrop : ((reindex cal (dateAssoc s)).drop i).findSome? id = none := by
    simp only [reindex]
    rw [← List.map_drop]
    rw [List.findSome?_eq_none_iff]
    intro x hx
    rw [List.mem_map] at hx
    obtain ⟨d, hd, hdx⟩ := hx
    rw [← hdx]
    simp [hfind d hd]
  have he2 : (bfill (reindex cal (dateAssoc s)))[i]? = some none := by
    rw [bfill_getElem? _ i he2len, hdrop]
  have hcal : cal[i]? = some (cal.get ⟨i, hi⟩) := by
    rw [List.getElem?_eq_getElem hi]
    simp
  refine List.mem_iff_getElem?.mpr ⟨i, ?_⟩
  rw [zipWith_getElem?_eq _ _ _ i none _ he2 hcal]
  simp

/-- Witness for claim C3 at the sample list `[(0, LAI=1, conf=0)]` and
calendar `[0, 1, 2, 3, 4]`, whose position 3 lies after the last sample. -/
theorem claim_C3_witness :
    get_MODIS [⟨0, 1, 0⟩] [0, 1, 2, 3, 4] = .error castErrMsg := by
  exact claim_C3 [⟨0, 1, 0⟩] [0, 1, 2, 3, 4] 3 (by decide) (by decide) (by decide)

/-! ### Claims C6-C7: precipitation aggregator and calendar builder -/

theorem mem_insOrd (x d : ℤ) (l : List ℤ) : x ∈ insOrd d l ↔ x = d ∨ x ∈ l := by
  induction l with
  | nil => simp [insOrd]
  | cons a r ih =>
    rcases lt_trichotomy d a with h2 | h1 | h3
    · have hne : d ≠ a := ne_of_lt h2
      simp [insOrd, hne, h2]
    · subst h1
      simp [insOrd]
    · have hne : d ≠ a := (ne_of_lt h3).symm
      have hnl : ¬ d < a := not_lt_of_gt h3
      simp [insOrd, hne, hnl, ih]
      tauto

theorem chain'_insOrd (d : ℤ) (l : List ℤ) (h : l.Chain' (· < ·)) :
    (insOrd d l).Chain' (· < ·) := by
  induction l with
  | nil => simp [insOrd]
  | cons a r ih =>
    rcases lt_trichotomy d a with h2 | h1 | h3
    · have hne : d ≠ a := ne_of_lt h2
      simp only [insOrd, if_neg hne, if_pos h2]
      rw [List.chain'_cons]
      exact ⟨h2, h⟩
    · subst h1
      simpa [insOrd] using h
    · have hne : d ≠ a := (ne_of_lt h3).symm
      have hnl : ¬ d < a := not_lt_of_gt h3
      simp only [insOrd, if_neg hne, if_neg hnl]
      have htail := ih (List.Chain'.tail h)
      rw [List.chain'_cons']
      refine ⟨?_, htail⟩
      intro b hb
      rcases r with _ | ⟨c, t⟩
      · simp only [insOrd, List.head?_cons, Option.mem_def, Option.some.injEq] at hb
        omega
      · rcases lt_trichotomy d c with g2 | g1 | g3
        · have gne : d ≠ c := ne_of_lt g2
          simp [insOrd, gne, g2] at hb
          omega
        · subst g1
          simp [insOrd] at hb
          have := List.chain'_cons.mp h
          omega
        · have gne : d ≠ c := (ne_of_lt g3).symm
          have gnl : ¬ d < c := not_lt_of_gt g3
          simp [insOrd, gne, gnl] at hb
          have := List.chain'_cons.mp h
          omega

theorem groupKeys_chain' (rows : List PrecRow) : (groupKeys rows).Chain' (· < ·) := by
  induction rows with
  | nil => simp [groupKeys]
  | cons r t ih => simpa [groupKeys] using chain'_insOrd r.date _ ih

theorem groupKeys_nodup (rows : List PrecRow) : (groupKeys rows).Nodup := by
  have h := groupKeys_chain' rows
  rw [List.chain'_iff_pairwise] at h
  exact h.imp (fun hlt => ne_of_lt hlt)

theorem mem_groupKeys (d : ℤ) (rows : List PrecRow) :
    d ∈ groupKeys rows ↔ ∃ r ∈ rows, r.date = d := by
  induction rows with
  | nil => simp [groupKeys]
  | cons r t ih =>
    have hstep : groupKeys (r :: t) = insOrd r.date (groupKeys t) := rfl
    rw [hstep, mem_insOrd, ih]
    constructor
    · rintro (h | ⟨x, hx, hxd⟩)
      · exact ⟨r, List.mem_cons_self r t, h.symm⟩
      · exact ⟨x, List.mem_cons_of_mem r hx, hxd⟩
    · rintro ⟨x, hx, hxd⟩
      rcases List.mem_cons.mp hx with rfl | hx2
      · exact Or.inl hxd.symm
      · exact Or.inr ⟨x, hx2, hxd⟩

theorem get_PREC_fst (years : List ℤ) (rows : List PrecRow) :
    (get_PREC_data years rows).rows.map Prod.fst =
      ((groupKeys rows).filter (fun d => years.contains (yearOf d))).map
        (fun d : ℤ => (d : ℚ)) := by
  simp [get_PREC_data]

/-- Claim C6, counterexample: for the requested years `[2018]`, an input
record dated 2017-06-01 — a date present in the input — produces no
output row at all: line 148 filters the aggregated rows to the requested
years, so the output does not have one row per date present in the
input. -/
theorem claim_C6_counterexample :
    ([(⟨toOrdinal 2017 6 1, 0, some 2⟩ : PrecRow)].map PrecRow.date) =
      [toOrdinal 2017 6 1] ∧
    (get_PREC_data [2018] [⟨toOrdinal 2017 6 1, 0, some 2⟩]).rows = [] := by
  refine ⟨rfl, ?_⟩
  decide

/-- Claim C6 (amended): the aggregator outputs exactly one row per date
present in the input whose calendar year is among the requested years
(line 148's filter) — dates of other years produce no row even when
present, and absent dates produce no row — carrying the sum of the
date's non-null values and the count of non-null samples; on the raw
rows `[(00:00, 2.0), (12:00, null), (18:00, 1.0)]` of one in-year date
the single output row has sum 3 and count 2. -/
theorem claim_C6 (years : List ℤ) (rows : List PrecRow) :
    ((get_PREC_data years rows).rows.map Prod.fst).Nodup ∧
    (∀ d : ℤ, ((d : ℚ)) ∈ (get_PREC_data years rows).rows.map Prod.fst ↔
      ((∃ r ∈ rows, r.date = d) ∧ yearOf d ∈ years)) ∧
    (∀ p ∈ (get_PREC_data years rows).rows, ∃ d : ℤ,
      (∃ r ∈ rows, r.date = d) ∧ yearOf d ∈ years ∧
      p = ((d : ℚ),
        [some ((rows.filter (fun r => r.date == d)).filterMap PrecRow.val).sum,
         some ((((rows.filter (fun r => r.date == d)).filterMap PrecRow.val).length : ℕ) : ℚ)])) ∧
    get_PREC_data [2018]
        [⟨toOrdinal 2018 1 1, 0, some 2⟩, ⟨toOrdinal 2018 1 1, 1/2, none⟩,
         ⟨toOrdinal 2018 1 1, 3/4, some 1⟩] =
      { idxName := "Date", cols := ["PRECIP", "prec_count"],
        rows := [((toOrdinal 2018 1 1 : ℚ), [some 3, some 2])] } := by
  refine ⟨?_, ?_, ?_, ?_⟩
  · rw [get_PREC_fst]
    exact List.Nodup.map Int.cast_injective ((groupKeys_nodup rows).filter _)
  · intro d
    rw [get_PREC_fst]
    constructor
    · intro h
      rcases List.mem_map.mp h with ⟨k, hk, hkd⟩
      have hkd2 : k = d := Int.cast_injective hkd
      subst hkd2
      rcases List.mem_filter.mp hk with ⟨hmem, hyear⟩
      refine ⟨(mem_groupKeys k rows).mp hmem, ?_⟩
      simpa using hyear
    · rintro ⟨⟨r, hr, hrd⟩, hy⟩
      refine List.mem_map.mpr ⟨d, ?_, rfl⟩
      refine List.mem_filter.mpr ⟨(mem_groupKeys d rows).mpr ⟨r, hr, hrd⟩, ?_⟩
      simpa using hy
  · intro p hp
    simp only [get_PREC_data, List.mem_map] at hp
    obtain ⟨d, hd, hdp⟩ := hp
    rcases List.mem_filter.mp hd with ⟨hmem, hyear⟩
    refine ⟨d, (mem_groupKeys d rows).mp hmem, by simpa using hyear, ?_⟩
    rw [← hdp]
    simp [precSum, precCount, dayVals]
  · have hy : yearOf (toOrdinal 2018 1 1) = 2018 := by decide
    simp [get_PREC_data, groupKeys, insOrd, precSum, precCount, dayVals, hy]
    norm_num

/-- Witness for claim C6: an in-year date present in the input is a key
of the aggregated table. -/
theorem claim_C6_witness :
    ((toOrdinal 2018 1 1 : ℚ)) ∈
      (get_PREC_data [2018] [⟨toOrdinal 2018 1 1, 0, some 2⟩]).rows.map Prod.fst := by
  refine ((claim_C6 [2018] [⟨toOrdinal 2018 1 1, 0, some 2⟩]).2.1
    (toOrdinal 2018 1 1)).mpr ⟨⟨⟨toOrdinal 2018 1 1, 0, some 2⟩, by simp, rfl⟩, by decide⟩

theorem dateRange_length (a b : ℤ) : (dateRange a b).length = (b + 1 - a).toNat := by
  simp only [dateRange, List.length_map, List.length_range]

theorem dateRange_get (a b : ℤ) (i : ℕ) (hi : i < (dateRange a b).length) :
    (dateRange a b).get ⟨i, hi⟩ = a + i := by
  simp only [dateRange, List.get_eq_getElem, List.getElem_map, List.getElem_range]

theorem dateRange_head? (a b : ℤ) (hab : a ≤ b) : (dateRange a b).head? = some a := by
  rw [List.head?_eq_getElem?]
  have h0 : 0 < (dateRange a b).length := by rw [dateRange_length]; omega
  rw [List.getElem?_eq_getElem h0]
  have h := dateRange_get a b 0 h0
  simp only [List.get_eq_getElem] at h
  simp [h]

theorem dateRange_getLast? (a b : ℤ) (hab : a ≤ b) :
    (dateRange a b).getLast? = some b := by
  rw [List.getLast?_eq_getElem?]
  have hl : (dateRange a b).length - 1 < (dateRange a b).length := by
    rw [dateRange_length]; omega
  rw [List.getElem?_eq_getElem hl]
  have h := dateRange_get a b ((dateRange a b).length - 1) hl
  simp only [List.get_eq_getElem] at h
  rw [h]
  have : (dateRange a b).length = (b + 1 - a).toNat := dateRange_length a b
  rw [this]
  congr 1
  omega

theorem daysBeforeYear_mono {a b : ℤ} (h : a ≤ b) :
    daysBeforeYear a ≤ daysBeforeYear b := by
  unfold daysBeforeYear
  omega

theorem toOrdinal_jan1_le_dec31 (y y' : ℤ) (h : y ≤ y') :
    toOrdinal y 1 1 ≤ toOrdinal y' 12 31 := by
  have h1 := daysBeforeYear_mono h
  have h2 : daysBeforeMonth (isLeap y) 1 = 0 := by
    cases isLeap y <;> simp [daysBeforeMonth, monthDays]
  have h3 : (334 : ℤ) ≤ daysBeforeMonth (isLeap y') 12 := by
    cases isLeap y' <;> simp [daysBeforeMonth, monthDays]
  unfold toOrdinal
  omega

theorem foldl_min_le (r : List ℤ) (a : ℤ) : r.foldl min a ≤ a := by
  induction r generalizing a with
  | nil => simp
  | cons b r ih => exact le_trans (ih (min a b)) (min_le_left a b)

theorem le_foldl_max (r : List ℤ) (a : ℤ) : a ≤ r.foldl max a := by
  induction r generalizing a with
  | nil => simp
  | cons b r ih => exact le_trans (le_max_left a b) (ih (max a b))

theorem listMin_le_listMax (l : List ℤ) (h : l ≠ []) : listMin l ≤ listMax l := by
  rcases l with _ | ⟨a, r⟩
  · exact absurd rfl h
  · exact le_trans (foldl_min_le r a) (le_foldl_max r a)

/-- Claim C7 (confirmed): for every non-empty year set, the calendar is
the contiguous daily range from January 1 of the minimum year through
December 31 of the maximum year inclusive, strictly increasing with
unit-day steps; for the years `{2018, 2019}` it has exactly 730 entries,
first date 2018-01-01 and last date 2019-12-31. -/
theorem claim_C7 (years : List ℤ) (hne : years ≠ []) :
    buildCalendar years =
      dateRange (toOrdinal (listMin years) 1 1) (toOrdinal (listMax years) 12 31) ∧
    (buildCalendar years).head? = some (toOrdinal (listMin years) 1 1) ∧
    (buildCalendar years).getLast? = some (toOrdinal (listMax years) 12 31) ∧
    (∀ (i : ℕ) (hi : i + 1 < (buildCalendar years).length),
      (buildCalendar years).get ⟨i + 1, hi⟩ =
        (buildCalendar years).get ⟨i, by omega⟩ + 1) ∧
    (buildCalendar [2018, 2019]).length = 730 ∧
    (buildCalendar [2018, 2019]).head? = some (toOrdinal 2018 1 1) ∧
    (buildCalendar [2018, 2019]).getLast? = some (toOrdinal 2019 12 31) := by
  have hab : toOrdinal (listMin years) 1 1 ≤ toOrdinal (listMax years) 12 31 :=
    toOrdinal_jan1_le_dec31 _ _ (listMin_le_listMax years hne)
  have hmin2 : listMin [(2018 : ℤ), 2019] = 2018 := by decide
  have hmax2 : listMax [(2018 : ℤ), 2019] = 2019 := by decide
  have hab2 : toOrdinal (2018 : ℤ) 1 1 ≤ toOrdinal (2019 : ℤ) 12 31 := by decide
  refine ⟨rfl, ?_, ?_, ?_, ?_, ?_, ?_⟩
  · exact dateRange_head? _ _ hab
  · exact dateRange_getLast? _ _ hab
  · intro i hi
    simp only [buildCalendar] at hi ⊢
    rw [dateRange_get, dateRange_get]
    push_cast
    ring
  · show (dateRange (toOrdinal (listMin [(2018:ℤ), 2019]) 1 1)
      (toOrdinal (listMax [(2018:ℤ), 2019]) 12 31)).length = 730
    rw [hmin2, hmax2, dateRange_length]
    decide
  · show (dateRange (toOrdinal (listMin [(2018:ℤ), 2019]) 1 1)
      (toOrdinal (listMax [(2018:ℤ), 2019]) 12 31)).head? = some (toOrdinal 2018 1 1)
    rw [hmin2, hmax2]
    exact dateRange_head? _ _ hab2
  · show (dateRange (toOrdinal (listMin [(2018:ℤ), 2019]) 1 1)
      (toOrdinal (listMax [(2018:ℤ), 2019]) 12 31)).getLast? = some (toOrdinal 2019 12 31)
    rw [hmin2, hmax2]
    exact dateRange_getLast? _ _ hab2

/-- Witness for claim C7 at the year set `[2018, 2019]`. -/
theorem claim_C7_witness :
    (buildCalendar [2018, 2019]).length = 730 ∧
    (buildCalendar [2018, 2019]).head? = some (toOrdinal 2018 1 1) := by
  have h := claim_C7 [2018, 2019] (by simp)
  exact ⟨h.2.2.2.2.1, h.2.2.2.2.2.1⟩

/-! ### Claims C4, C5, C10: the atmosphere writer -/

theorem assign_rows_length (t : Table) (c : String)
    (f : List String → List (Option ℚ) → Option ℚ) :
    (t.assign c f).rows.length = t.rows.length := by
  rw [Table.assign]
  split <;> simp

theorem drop_rows_length (t : Table) (cs : List String) :
    (t.drop cs).rows.length = t.rows.length := by
  simp [Table.drop]

theorem scale_rows_length (t : Table) (k : ℚ) :
    (t.scale k).rows.length = t.rows.length := by
  simp [Table.scale]

theorem assignConst_rows_length (t : Table) (c : String) (v : ℚ) :
    (t.assignConst c v).rows.length = t.rows.length := by
  rw [Table.assignConst]
  exact assign_rows_length t c _

theorem assignRange_rows_length (t : Table) (c : String) :
    (t.assignRange c).rows.length = t.rows.length := by
  simp [Table.assignRange]

theorem setIndex_rows_length (t : Table) (c : String) :
    (t.setIndex c).rows.length = t.rows.length := by
  simp [Table.setIndex]

theorem resetIndex_rows_length (t : Table) :
    t.resetIndex.rows.length = t.rows.length := by
  simp [Table.resetIndex]

theorem rename_rows_length (t : Table) (a b : String) :
    (t.rename a b).rows.length = t.rows.length := rfl

/-- The shared writer chain keeps exactly one output row per input row. -/
theorem core_rows_length (e : ℚ → ℚ) (a b : String) (t : Table) :
    (write_atmo_core e a b t).rows.length = t.rows.length := by
  rw [write_atmo_core]
  rw [assign_rows_length, resetIndex_rows_length, rename_rows_length,
    setIndex_rows_length, assignRange_rows_length, assignConst_rows_length,
    scale_rows_length, drop_rows_length, assign_rows_length, assign_rows_length]

theorem filter_key_length_le (l : List (ℚ × List (Option ℚ))) (d : ℚ)
    (h : (l.map Prod.fst).Nodup) : (l.filter (fun s => s.1 == d)).length ≤ 1 := by
  induction l with
  | nil => simp
  | cons a t ih =>
    simp only [List.map_cons, List.nodup_cons] at h
    by_cases hd : a.1 == d
    · have hnil : t.filter (fun s => s.1 == d) = [] := by
        rw [List.filter_eq_nil_iff]
        intro s hs hsd
        apply h.1
        rw [List.mem_map]
        refine ⟨s, hs, ?_⟩
        have e1 : s.1 = d := by simpa using hsd
        have e2 : a.1 = d := by simpa using hd
        rw [e1, e2]
      simp [List.filter_cons, hd, hnil]
    · simp only [List.filter_cons, if_neg hd]
      exact ih h.2

/-- A left join on a duplicate-free right index keeps exactly the left
index, in order. -/
theorem join_rows_fst (t u : Table) (h : (u.rows.map Prod.fst).Nodup) :
    (t.join u).rows.map Prod.fst = t.rows.map Prod.fst := by
  rcases t with ⟨nm, cs, rs⟩
  simp only [Table.join]
  induction rs with
  | nil => rfl
  | cons a rs ih =>
    rw [List.flatMap_cons, List.map_append, ih]
    have hone := filter_key_length_le u.rows a.1 h
    rcases hl : u.rows.filter (fun s => s.1 == a.1) with _ | ⟨s, ms⟩
    · simp [hl]
    · rw [hl] at hone
      simp only [List.length_cons] at hone
      have : ms = [] := by
        rcases ms with _ | ⟨x, xs⟩
        · rfl
        · simp at hone
      subst this
      simp [hl]

/-- Claim C10 (confirmed): in each pathway the output row set is exactly
the PE series' date index (left-join semantics): one output row per PE
row, a date absent from PE produces no output row whatever the other
inputs hold, and the final written table has exactly as many rows as the
PE input. -/
theorem claim_C10 (e : ℚ → ℚ) (pe prec modis : Table)
    (hprec : (prec.rows.map Prod.fst).Nodup)
    (hmod : (modis.rows.map Prod.fst).Nodup) :
    ((pe.join prec).join modis).rows.map Prod.fst = pe.rows.map Prod.fst ∧
    (∀ d : ℚ, d ∉ pe.rows.map Prod.fst →
      d ∉ ((pe.join prec).join modis).rows.map Prod.fst) ∧
    (write_atmo_api e pe prec modis).rows.length = pe.rows.length ∧
    (write_atmo_file e pe prec modis).rows.length = pe.rows.length := by
  have hj1 : (pe.join prec).rows.map Prod.fst = pe.rows.map Prod.fst :=
    join_rows_fst pe prec hprec
  have hj2 : ((pe.join prec).join modis).rows.map Prod.fst = pe.rows.map Prod.fst := by
    rw [join_rows_fst _ modis hmod, hj1]
  have hlen : ((pe.join prec).join modis).rows.length = pe.rows.length := by
    have := congrArg List.length hj2
    simpa using this
  refine ⟨hj2, ?_, ?_, ?_⟩
  · intro d hd
    rw [hj2]
    exact hd
  · rw [write_atmo_api, core_rows_length]
    exact hlen
  · rw [write_atmo_file, core_rows_length]
    exact hlen

/-- Witness for claim C10 on one-row tables. -/
theorem claim_C10_witness :
    ((((Table.mk "date" ["pe"] [(0, [some 5])]).join
        (Table.mk "date" ["precip"] [(0, [some 10]), (1, [some 4])])).join
      (Table.mk "Date" ["LAI_pred"] [(0, [some 0])])).rows.map Prod.fst) =
      [(0 : ℚ)] := by
  have h := claim_C10 (fun _ => 1)
    (Table.mk "date" ["pe"] [(0, [some 5])])
    (Table.mk "date" ["precip"] [(0, [some 10]), (1, [some 4])])
    (Table.mk "Date" ["LAI_pred"] [(0, [some 0])])
    (by decide) (by decide)
  exact h.1

/-- Claim C4 (confirmed): for every row of a driving table with defined
PE, precipitation and LAI_pred, the writer chain produces
`rSoil = PE * exp(-0.463 * LAI_pred)` and `rRoot = PE - rSoil`, scales
rSoil, rRoot and precipitation by 0.1, appends the unscaled constant
`hCritA = 100000` after the scaling, and assigns `tAtm` as the 1-based
row position; the output columns are `tAtm, Prec, rSoil, rRoot, hCritA`. -/
theorem claim_C4 (e : ℚ → ℚ) (rows : List (ℚ × List (Option ℚ))) (nm : String)
    (i : ℕ) (pe pr l : ℚ) (d : ℚ)
    (hrow : rows[i]? = some (d, [some pe, some pr, some l])) :
    (write_atmo_core e "pe" "precip"
        (Table.mk nm ["pe", "precip", "LAI_pred"] rows)).cols =
      ["tAtm", "Prec", "rSoil", "rRoot", "hCritA"] ∧
    (write_atmo_core e "pe" "precip"
        (Table.mk nm ["pe", "precip", "LAI_pred"] rows)).rows[i]? =
      some (((i : ℚ)),
        [some ((i : ℚ) + 1),
         some (pr * (1 / 10)),
         some (pe * e (-(463 / 1000) * l) * (1 / 10)),
         some ((pe - pe * e (-(463 / 1000) * l)) * (1 / 10)),
         some 100000]) := by
  constructor
  · simp [write_atmo_core, Table.assign, Table.drop, Table.scale, Table.assignConst,
      Table.assignRange, Table.setIndex, Table.resetIndex, Table.rename]
  · simp [write_atmo_core, Table.assign, Table.drop, Table.scale, Table.assignConst,
      Table.assignRange, Table.setIndex, Table.resetIndex, Table.rename, getCell,
      List.getElem?_map, List.getElem?_enum, hrow, opt2]

/-- Witness for claim C4 at the spec's example row
`PE = 5, Precip = 10, LAI_pred = 0` with `exp 0 = 1`: the written record
is `tAtm = 1, Prec = 1.0, rSoil = 0.5, rRoot = 0.0, hCritA = 100000`. -/
theorem claim_C4_witness :
    (write_atmo_core (fun _ => 1) "pe" "precip"
        (Table.mk "date" ["pe", "precip", "LAI_pred"]
          [(0, [some 5, some 10, some 0])])).rows[0]? =
      some (0, [some 1, some 1, some (1 / 2), some 0, some 100000]) := by
  have h := claim_C4 (fun _ => 1) [(0, [some 5, some 10, some 0])] "date" 0 5 10 0 0 rfl
  rw [h.2]
  norm_num

/-- One-row archival PE table used for the column-set counterexample. -/
def peF5 : Table := ⟨"Date", ["PE"], [(0, [some 5])]⟩

/-- Aggregated precipitation table from one raw sub-daily record of an
in-year date. -/
def prF5 : Table := get_PREC_data [2018] [⟨toOrdinal 2018 1 1, 0, some 2⟩]

/-- Reconstructed-LAI table over a one-day calendar whose single sample
sits on it (a successful `get_MODIS_data` run). -/
def mF5 : Table := ⟨"Date", ["LAI_pred"], [(5, [some 1])]⟩

/-- Claim C5, counterexample: the archival-file-sourced atmosphere table
produced from reader-shaped inputs carries the extra column `prec_count`
(the precipitation sample count, between `Prec` and `rSoil`), so its
column set is not `tAtm, Prec, rSoil, rRoot, hCritA`. -/
theorem claim_C5_counterexample :
    get_MODIS_table [⟨5, 1, 0⟩] [5] = .ok mF5 ∧
    (write_atmo_file (fun _ => 1) peF5 prF5 mF5).cols =
      ["tAtm", "Prec", "prec_count", "rSoil", "rRoot", "hCritA"] ∧
    (write_atmo_file (fun _ => 1) peF5 prF5 mF5).cols ≠
      ["tAtm", "Prec", "rSoil", "rRoot", "hCritA"] := by
  refine ⟨rfl, ?_, ?_⟩ <;> decide

/-- Claim C5 (amended): the API-sourced atmosphere table has exactly the
columns `tAtm, Prec, rSoil, rRoot, hCritA`; the archival-file-sourced
table has those plus `prec_count`, carried in from `get_PREC_data`
(whose output columns are `PRECIP` and `prec_count`). -/
theorem claim_C5 (e : ℚ → ℚ) (peA prA mA peF prF mF : Table)
    (h1 : peA.cols = ["pe"]) (h2 : prA.cols = ["precip"])
    (h3 : mA.cols = ["LAI_pred"]) (h4 : peF.cols = ["PE"])
    (h5 : prF.cols = ["PRECIP", "prec_count"]) (h6 : mF.cols = ["LAI_pred"]) :
    (write_atmo_api e peA prA mA).cols = ["tAtm", "Prec", "rSoil", "rRoot", "hCritA"] ∧
    (write_atmo_file e peF prF mF).cols =
      ["tAtm", "Prec", "prec_count", "rSoil", "rRoot", "hCritA"] ∧
    (∀ (ys : List ℤ) (rs : List PrecRow),
      (get_PREC_data ys rs).cols = ["PRECIP", "prec_count"]) ∧
    (∀ (s : List Sample) (cal : List ℤ) (t : Table),
      get_MODIS_table s cal = .ok t → t.cols = ["LAI_pred"]) := by
  refine ⟨?_, ?_, fun ys rs => rfl, ?_⟩
  · simp [write_atmo_api, write_atmo_core, Table.join, Table.assign, Table.drop,
      Table.scale, Table.assignConst, Table.assignRange, Table.setIndex,
      Table.resetIndex, Table.rename, h1, h2, h3]
  · simp [write_atmo_file, write_atmo_core, Table.join, Table.assign, Table.drop,
      Table.scale, Table.assignConst, Table.assignRange, Table.setIndex,
      Table.resetIndex, Table.rename, h4, h5, h6]
  · intro s cal t h
    rcases hm : get_MODIS s cal with m | preds
    · rw [get_MODIS_table, hm] at h
      cases h
    · rw [get_MODIS_table, hm] at h
      simp only [Except.map, Except.ok.injEq] at h
      subst h
      rfl

/-- Witness for claim C5 with reader-shaped concrete tables on both
pathways. -/
theorem claim_C5_witness :
    (write_atmo_api (fun _ => 1) (Table.mk "date" ["pe"] [])
        (Table.mk "date" ["precip"] []) (Table.mk "Date" ["LAI_pred"] [])).cols =
      ["tAtm", "Prec", "rSoil", "rRoot", "hCritA"] ∧
    (write_atmo_file (fun _ => 1) peF5 prF5 mF5).cols =
      ["tAtm", "Prec", "prec_count", "rSoil", "rRoot", "hCritA"] := by
  have h := claim_C5 (fun _ => 1) (Table.mk "date" ["pe"] [])
    (Table.mk "date" ["precip"] []) (Table.mk "Date" ["LAI_pred"] [])
    peF5 prF5 mF5 rfl rfl rfl rfl rfl rfl
  exact ⟨h.1, h.2.1⟩

/-! ### Claims C8-C9: the write step and the full pipeline -/

/-- An arbitrary computed atmosphere table for the write-step scenarios. -/
def tEx : Table := ⟨"", ["tAtm"], []⟩

/-- Claim C8, counterexample: starting from a file system holding no
output files, a run whose API-pathway table is computed but whose
archival-pathway computation fails ends in an error, yet the API output
file has already been written to its final path — the set of previously
existing output files is changed by a failing run. -/
theorem claim_C8_counterexample :
    (writeAtmoRun (.ok tEx) (.error "join failed") (fun _ => none)).1 =
      .error "join failed" ∧
    (writeAtmoRun (.ok tEx) (.error "join failed") (fun _ => none)).2 apiPath ≠
      (fun _ => (none : Option Table)) apiPath := by
  refine ⟨rfl, ?_⟩
  simp [writeAtmoRun, writeFile]

/-- Claim C8 (amended): the write step stages nothing: each table is
written directly to its final path by `to_csv`. A failure before the
first write leaves the file system unchanged, but a failure of the
archival-pathway computation happens after `data/atmosphere_API.csv` has
already been overwritten, so a failing run does not preserve the
previously existing outputs. -/
theorem claim_C8 (ta : Table) (m : String) (fs : FS) :
    (writeAtmoRun (.ok ta) (.error m) fs).1 = .error m ∧
    (writeAtmoRun (.ok ta) (.error m) fs).2 apiPath = some ta ∧
    (∀ p, p ≠ apiPath → (writeAtmoRun (.ok ta) (.error m) fs).2 p = fs p) ∧
    (∀ arch, (writeAtmoRun (.error m) arch fs).2 = fs) := by
  refine ⟨rfl, ?_, ?_, fun arch => rfl⟩
  · simp [writeAtmoRun, writeFile]
  · intro p hp
    simp [writeAtmoRun, writeFile, hp]

/-- Witness for claim C8 at a concrete table, error and empty file
system. -/
theorem claim_C8_witness :
    (writeAtmoRun (.ok tEx) (.error "boom") (fun _ => none)).1 = .error "boom" ∧
    (writeAtmoRun (.ok tEx) (.error "boom") (fun _ => none)).2 apiPath = some tEx ∧
    (writeAtmoRun (.ok tEx) (.error "boom") (fun _ => none)).2 filePath =
      (fun _ => (none : Option Table)) filePath := by
  have h := claim_C8 tEx "boom" (fun _ => none)
  exact ⟨h.1, h.2.1, h.2.2.1 filePath (by decide)⟩

/-- Rendering of a cell as written to CSV (a fixed function of the cell;
the numeric format of the source is `%6.4f`, whose exact digits are
irrelevant to determinism). -/
def renderCell : Option ℚ → String
  | none => ""
  | some v => toString v

/-- Rendering of a table as CSV text: a fixed function of the table. -/
def renderTable (t : Table) : String :=
  String.intercalate "\n"
    ((String.intercalate "," (t.idxName :: t.cols)) ::
      t.rows.map (fun r => String.intercalate "," (toString r.1 :: r.2.map renderCell)))

/-- Claim C9 (confirmed): the pipeline is deterministic — its outcome is
a function of the declared inputs alone. Two runs on the same inputs,
from arbitrary (possibly different) prior file-system states, return the
same result; either both abort on the LAI reconstruction having written
nothing, or both leave identical tables — hence byte-identical rendered
contents — at both output paths. -/
theorem claim_C9 (e : ℚ → ℚ) (i : Inputs) (fs1 fs2 : FS) :
    (runPipeline e i fs1).1 = (runPipeline e i fs2).1 ∧
    (((runPipeline e i fs1).2 = fs1 ∧ (runPipeline e i fs2).2 = fs2) ∨
      ((runPipeline e i fs1).2 apiPath = (runPipeline e i fs2).2 apiPath ∧
       (runPipeline e i fs1).2 filePath = (runPipeline e i fs2).2 filePath ∧
       ((runPipeline e i fs1).2 apiPath).map renderTable =
         ((runPipeline e i fs2).2 apiPath).map renderTable ∧
       ((runPipeline e i fs1).2 filePath).map renderTable =
         ((runPipeline e i fs2).2 filePath).map renderTable)) := by
  rcases hm : get_MODIS_table i.modis (buildCalendar i.years) with m | mt
  · refine ⟨?_, Or.inl ⟨?_, ?_⟩⟩ <;> simp [runPipeline, hm]
  · have hapi : (runPipeline e i fs1).2 apiPath = (runPipeline e i fs2).2 apiPath := by
      simp [runPipeline, hm, writeAtmoRun, writeFile, apiPath, filePath]
    have hfile : (runPipeline e i fs1).2 filePath = (runPipeline e i fs2).2 filePath := by
      simp [runPipeline, hm, writeAtmoRun, writeFile, apiPath, filePath]
    exact ⟨by simp [runPipeline, hm, writeAtmoRun, writeFile],
      Or.inr ⟨hapi, hfile, by rw [hapi], by rw [hfile]⟩⟩

end Cosmos
